import Mathlib

/-!
Verification of the period/rotation calculus of the pan-eng-review-rotation
repository against its design specification.

The TypeScript sources are shallowly embedded:

* a JavaScript `Date` is its UTC timestamp in milliseconds, modelled as `Int`;
  the ECMAScript field accessors (`getUTCFullYear`, `getUTCMonth`, `getUTCDate`,
  `getUTCDay`) and `Date.UTC` are modelled through the standard proleptic
  Gregorian ("civil") calendar algorithm on day numbers;
* `Math.floor(a / b)` on integer-valued quantities is `Int.fdiv`,
  `Math.ceil(a / b)` is the matching ceiling division, and the JavaScript `%`
  operator is the truncating remainder `Int.tmod`;
* ISO-date strings stored in the persisted state (`startDate`,
  `lastRotationDate`) are modelled by the instants they denote (parsing is
  glue); a user's `startDate` string is kept as a `String` because validation
  only tests its truthiness;
* the storage services' load/save I/O is modelled by explicit state passing:
  an operation takes the persisted `RotationState` and returns `Except` of the
  result (paired with the new persisted state for mutating operations), so an
  error result leaves the persisted state unchanged by construction.
-/

namespace Rotation

/-! ### JavaScript arithmetic primitives -/

/-- Milliseconds per day. -/
def dayMs : Int := 86400000

/-- JavaScript `Math.floor(a / b)` on integer operands. -/
def jsFloorDiv (a b : Int) : Int := Int.fdiv a b

/-- JavaScript `Math.ceil(a / b)` on integer operands. -/
def jsCeilDiv (a b : Int) : Int := -(Int.fdiv (-a) b)

/-- JavaScript `%` (truncating remainder) on integer operands. -/
def jsMod (a b : Int) : Int := Int.tmod a b

theorem jsFloorDiv_eq_ediv (a : Int) {b : Int} (hb : 0 ≤ b) :
    jsFloorDiv a b = a / b := Int.fdiv_eq_ediv a hb

theorem jsMod_eq_emod {a b : Int} (ha : 0 ≤ a) (hb : 0 ≤ b) :
    jsMod a b = a % b := Int.tmod_eq_emod ha hb

/-! ### Civil (proleptic Gregorian) calendar

Models the calendar arithmetic that ECMAScript `Date` performs internally,
via the standard era/year-of-era decomposition (days are counted from
1970-01-01, the year-of-era cycle is 400 years = 146097 days). -/

/-- Days before year-of-era `yoe` within an era (shifted years start March 1). -/
def doyBase (yoe : Nat) : Nat := 365 * yoe + yoe / 4 - yoe / 100

/-- Year of era from day of era. -/
def yoeOf (doe : Nat) : Nat := (doe - doe / 1460 + doe / 36524 - doe / 146096) / 365

/-- First day-of-shifted-year of shifted month `mp` (`mp = 0` is March). -/
def monthStart (mp : Nat) : Nat := (153 * mp + 2) / 5

/-- Day of shifted year from day of era. -/
def doyOf (doe : Nat) : Nat := doe - doyBase (yoeOf doe)

/-- Shifted month (0 = March … 11 = February) from day of era. -/
def mpOf (doe : Nat) : Nat := (5 * doyOf doe + 2) / 153

/-- Day of month from day of era. -/
def dayOfDoe (doe : Nat) : Nat := doyOf doe - monthStart (mpOf doe) + 1

/-- Civil month (1 = January … 12 = December) from day of era. -/
def monthOfDoe (doe : Nat) : Int :=
  if mpOf doe < 10 then (mpOf doe : Int) + 3 else (mpOf doe : Int) - 9

/-- Civil year from era and day of era. -/
def yearOfDoe (era : Int) (doe : Nat) : Int :=
  era * 400 + (yoeOf doe : Int) + (if monthOfDoe doe ≤ 2 then 1 else 0)

/-- A civil calendar date (month is 1-based). -/
structure Civil where
  year : Int
  month : Int
  day : Int
deriving DecidableEq, Repr

/-- Civil date of a day number (days since 1970-01-01 UTC). -/
def civilFromDays (z : Int) : Civil :=
  let era := Int.fdiv (z + 719468) 146097
  let doe := (z + 719468 - era * 146097).toNat
  ⟨yearOfDoe era doe, monthOfDoe doe, (dayOfDoe doe : Int)⟩

/-- Day number of a civil date (month 1..12; the day may be any integer,
the result is linear in it, matching ECMAScript `MakeDay`). -/
def daysFromCivil (y m d : Int) : Int :=
  let yAdj := y - (if m ≤ 2 then 1 else 0)
  let era := Int.fdiv yAdj 400
  let yoe := (yAdj - era * 400).toNat
  let mp := (if 2 < m then m - 3 else m + 9).toNat
  era * 146097 + (doyBase yoe : Int) + (monthStart mp : Int) + d - 1 - 719468

set_option maxHeartbeats 4000000 in
/-- Core correctness of the year-of-era extraction: within one 146097-day era,
`yoeOf` finds the year-of-era whose day window contains the given day. -/
theorem yoeOf_correct (doe : Nat) (h : doe < 146097) :
    yoeOf doe ≤ 399 ∧ doyBase (yoeOf doe) ≤ doe ∧ doe - doyBase (yoeOf doe) ≤ 365 ∧
    (yoeOf doe ≤ 398 → doe < doyBase (yoeOf doe + 1)) := by
  obtain ⟨a, ha⟩ : ∃ a, yoeOf doe = a := ⟨_, rfl⟩
  rw [ha]
  unfold yoeOf at ha
  have hb : a ≤ 400 := by omega
  unfold doyBase
  interval_cases a <;> omega

set_option maxRecDepth 4000 in
set_option maxHeartbeats 2000000 in
/-- Correctness of the month/day split of a day of a shifted year. -/
theorem monthStart_correct : ∀ doy : Nat, doy < 366 →
    (5 * doy + 2) / 153 ≤ 11 ∧ monthStart ((5 * doy + 2) / 153) ≤ doy ∧
    doy - monthStart ((5 * doy + 2) / 153) ≤ 30 ∧
    ((5 * doy + 2) / 153 ≤ 10 → doy < monthStart ((5 * doy + 2) / 153 + 1)) := by
  decide

/-- Combined day-of-era facts used to assemble the calendar round trip. -/
theorem doe_split (doe : Nat) (h : doe < 146097) :
    yoeOf doe ≤ 399 ∧ mpOf doe ≤ 11 ∧ 1 ≤ dayOfDoe doe ∧ dayOfDoe doe ≤ 31 ∧
    doyBase (yoeOf doe) + monthStart (mpOf doe) + dayOfDoe doe - 1 = doe ∧
    (mpOf doe ≤ 10 → doe + 1 ≤ doyBase (yoeOf doe) + monthStart (mpOf doe + 1)) ∧
    (mpOf doe = 11 → yoeOf doe ≤ 398 → doe + 1 ≤ doyBase (yoeOf doe + 1)) := by
  obtain ⟨hy1, hy2, hy3, hy4⟩ := yoeOf_correct doe h
  have hdoy : doyOf doe < 366 := by unfold doyOf; omega
  obtain ⟨hm1, hm2, hm3, hm4⟩ := monthStart_correct (doyOf doe) hdoy
  have hmp : mpOf doe = (5 * doyOf doe + 2) / 153 := rfl
  rw [← hmp] at hm1 hm2 hm3 hm4
  have hd : dayOfDoe doe = doyOf doe - monthStart (mpOf doe) + 1 := rfl
  have hdoy2 : doyOf doe = doe - doyBase (yoeOf doe) := rfl
  -- the `mp = 11` high bound forces the shifted year to roll over
  have h11 : mpOf doe = 11 → monthStart 11 ≤ doyOf doe := by
    intro hmp11; rw [← hmp11]; exact hm2
  have hms11 : monthStart 11 = 337 := by decide
  have hy4b : mpOf doe = 11 → yoeOf doe ≤ 398 → doe + 1 ≤ doyBase (yoeOf doe + 1) := by
    intro _ hle
    exact hy4 hle
  refine ⟨hy1, hm1, ?_, ?_, ?_, ?_, hy4b⟩
  · omega
  · omega
  · omega
  · intro hle
    have := hm4 hle
    omega

/-- Eliminating the era quotient: the decomposition produced by
`civilFromDays` is the Euclidean one. -/
theorem era_decomp (z : Int) :
    0 ≤ z + 719468 - Int.fdiv (z + 719468) 146097 * 146097 ∧
    z + 719468 - Int.fdiv (z + 719468) 146097 * 146097 < 146097 := by
  rw [Int.fdiv_eq_ediv _ (by norm_num)]
  omega

/-- Evaluation of `daysFromCivil` at a month in March..December given an
era/year-of-era decomposition of the year. -/
theorem daysFromCivil_eval_hi (era : Int) (yoe : Nat) (hyoe : yoe ≤ 399)
    (m d : Int) (hm : 3 ≤ m ∧ m ≤ 12) :
    daysFromCivil (era * 400 + (yoe : Int)) m d
      = era * 146097 + (doyBase yoe : Int) + (monthStart (m - 3).toNat : Int)
          + d - 1 - 719468 := by
  have h2 : ¬(m ≤ 2) := by omega
  have h3 : 2 < m := by omega
  simp only [daysFromCivil, if_neg h2, if_pos h3, sub_zero]
  have hfd : Int.fdiv (era * 400 + (yoe : Int)) 400 = era := by
    rw [Int.fdiv_eq_ediv _ (by norm_num)]
    omega
  rw [hfd]
  have hyn : (era * 400 + (yoe : Int) - era * 400).toNat = yoe := by omega
  rw [hyn]

/-- Evaluation of `daysFromCivil` at January or February given an
era/year-of-era decomposition of the preceding shifted year. -/
theorem daysFromCivil_eval_lo (era : Int) (yoe : Nat) (hyoe : yoe ≤ 399)
    (m d : Int) (hm : 1 ≤ m ∧ m ≤ 2) :
    daysFromCivil (era * 400 + (yoe : Int) + 1) m d
      = era * 146097 + (doyBase yoe : Int) + (monthStart (m + 9).toNat : Int)
          + d - 1 - 719468 := by
  have h2 : m ≤ 2 := by omega
  have h3 : ¬(2 < m) := by omega
  simp only [daysFromCivil, if_pos h2, if_neg h3, add_sub_cancel_right]
  have hfd : Int.fdiv (era * 400 + (yoe : Int)) 400 = era := by
    rw [Int.fdiv_eq_ediv _ (by norm_num)]
    omega
  rw [hfd]
  have hyn : (era * 400 + (yoe : Int) - era * 400).toNat = yoe := by omega
  rw [hyn]

/-- The civil month following the date `civilFromDays` assigns to `z`. -/
def nextMonthFirst (c : Civil) : Int :=
  if c.month = 12 then daysFromCivil (c.year + 1) 1 1 else daysFromCivil c.year (c.month + 1) 1

/-- Full correctness of the civil calendar conversion: the extracted fields
are in range, convert back to the same day number, and the day number is
below the first day of the following month. -/
theorem civilFromDays_correct (z : Int) :
    1 ≤ (civilFromDays z).month ∧ (civilFromDays z).month ≤ 12 ∧
    1 ≤ (civilFromDays z).day ∧ (civilFromDays z).day ≤ 31 ∧
    daysFromCivil (civilFromDays z).year (civilFromDays z).month (civilFromDays z).day = z ∧
    z < nextMonthFirst (civilFromDays z) := by
  obtain ⟨hd1, hd2⟩ := era_decomp z
  have hc : civilFromDays z
      = ⟨yearOfDoe (Int.fdiv (z + 719468) 146097)
            ((z + 719468 - Int.fdiv (z + 719468) 146097 * 146097).toNat),
          monthOfDoe ((z + 719468 - Int.fdiv (z + 719468) 146097 * 146097).toNat),
          ((dayOfDoe ((z + 719468 - Int.fdiv (z + 719468) 146097 * 146097).toNat) : Nat) : Int)⟩ :=
    rfl
  obtain ⟨era, hera⟩ : ∃ e, Int.fdiv (z + 719468) 146097 = e := ⟨_, rfl⟩
  rw [hera] at hc hd1 hd2
  obtain ⟨doe, hdoe⟩ : ∃ n, (z + 719468 - era * 146097).toNat = n := ⟨_, rfl⟩
  rw [hdoe] at hc
  have hzdoe : (doe : Int) = z + 719468 - era * 146097 := by omega
  have hdoeN : doe < 146097 := by omega
  obtain ⟨hy1, hm1, hd1le, hd31, hsum, hnext, hroll⟩ := doe_split doe hdoeN
  rw [hc]
  simp only
  by_cases h10 : mpOf doe < 10
  · -- March .. December
    have hmv : monthOfDoe doe = (mpOf doe : Int) + 3 := by
      unfold monthOfDoe
      rw [if_pos h10]
    have hyv : yearOfDoe era doe = era * 400 + (yoeOf doe : Int) := by
      unfold yearOfDoe
      rw [hmv, if_neg (by omega)]
      ring
    rw [hmv, hyv]
    have hrt : daysFromCivil (era * 400 + (yoeOf doe : Int)) ((mpOf doe : Int) + 3)
        ((dayOfDoe doe : Nat) : Int)
        = era * 146097 + (doyBase (yoeOf doe) : Int) + (monthStart (mpOf doe) : Int)
            + (dayOfDoe doe : Int) - 1 - 719468 := by
      rw [daysFromCivil_eval_hi era (yoeOf doe) hy1 _ _ ⟨by omega, by omega⟩]
      have : (((mpOf doe : Int) + 3) - 3).toNat = mpOf doe := by omega
      rw [this]
    by_cases h9 : mpOf doe = 9
    · -- December: the next month is January of the next civil year
      have h12 : (mpOf doe : Int) + 3 = 12 := by rw [h9]; norm_num
      refine ⟨by omega, by omega, by omega, by omega, ?_, ?_⟩
      · rw [hrt]; omega
      · unfold nextMonthFirst
        rw [if_pos h12]
        rw [daysFromCivil_eval_lo era (yoeOf doe) hy1 1 1 ⟨le_refl 1, by norm_num⟩]
        have hms : ((1 : Int) + 9).toNat = 10 := by omega
        rw [hms]
        have := hnext (by omega)
        rw [h9] at this
        norm_num at this
        omega
    · -- March .. November: the next month stays within the shifted year
      have h12 : ¬((mpOf doe : Int) + 3 = 12) := by omega
      refine ⟨by omega, by omega, by omega, by omega, ?_, ?_⟩
      · rw [hrt]; omega
      · unfold nextMonthFirst
        simp only [if_neg h12]
        have harg : (mpOf doe : Int) + 3 + 1 = ((mpOf doe + 1 : Nat) : Int) + 3 := by
          push_cast; ring
        rw [harg,
          daysFromCivil_eval_hi era (yoeOf doe) hy1 _ 1 ⟨by omega, by omega⟩]
        have hms : (((mpOf doe + 1 : Nat) : Int) + 3 - 3).toNat = mpOf doe + 1 := by omega
        rw [hms]
        have := hnext (by omega)
        omega
  · -- January or February
    have hmv : monthOfDoe doe = (mpOf doe : Int) - 9 := by
      unfold monthOfDoe
      rw [if_neg h10]
    have hyv : yearOfDoe era doe = era * 400 + (yoeOf doe : Int) + 1 := by
      unfold yearOfDoe
      rw [hmv, if_pos (by omega)]
    rw [hmv, hyv]
    have hrt : daysFromCivil (era * 400 + (yoeOf doe : Int) + 1) ((mpOf doe : Int) - 9)
        ((dayOfDoe doe : Nat) : Int)
        = era * 146097 + (doyBase (yoeOf doe) : Int) + (monthStart (mpOf doe) : Int)
            + (dayOfDoe doe : Int) - 1 - 719468 := by
      rw [daysFromCivil_eval_lo era (yoeOf doe) hy1 _ _ ⟨by omega, by omega⟩]
      have : (((mpOf doe : Int) - 9) + 9).toNat = mpOf doe := by omega
      rw [this]
    by_cases h11 : mpOf doe = 10
    · -- January: the next month is February of the same civil year
      refine ⟨by omega, by omega, by omega, by omega, ?_, ?_⟩
      · rw [hrt]; omega
      · unfold nextMonthFirst
        simp only [if_neg (show ¬((mpOf doe : Int) - 9 = 12) by omega)]
        have harg : (mpOf doe : Int) - 9 + 1 = 2 := by rw [h11]; norm_num
        rw [harg,
          daysFromCivil_eval_lo era (yoeOf doe) hy1 2 1 ⟨by norm_num, le_refl 2⟩]
        have hms : ((2 : Int) + 9).toNat = 11 := by omega
        rw [hms]
        have := hnext (by omega)
        rw [h11] at this
        norm_num at this
        omega
    · -- February: the next month is March, rolling into the next shifted year
      have h11e : mpOf doe = 11 := by omega
      refine ⟨by omega, by omega, by omega, by omega, ?_, ?_⟩
      · rw [hrt]; omega
      · unfold nextMonthFirst
        simp only [if_neg (show ¬((mpOf doe : Int) - 9 = 12) by omega)]
        have harg : (mpOf doe : Int) - 9 + 1 = 3 := by rw [h11e]; norm_num
        rw [harg]
        by_cases hy398 : yoeOf doe ≤ 398
        · have hyarg : era * 400 + (yoeOf doe : Int) + 1
              = era * 400 + ((yoeOf doe + 1 : Nat) : Int) := by push_cast; ring
          rw [hyarg,
            daysFromCivil_eval_hi era (yoeOf doe + 1) (by omega) 3 1 ⟨le_refl 3, by norm_num⟩]
          have hms : ((3 : Int) - 3).toNat = 0 := by omega
          rw [hms]
          have hms0 : monthStart 0 = 0 := by decide
          rw [hms0]
          have := hroll h11e hy398
          omega
        · have hy399 : yoeOf doe = 399 := by omega
          have hyarg : era * 400 + (yoeOf doe : Int) + 1
              = (era + 1) * 400 + ((0 : Nat) : Int) := by rw [hy399]; push_cast; ring
          rw [hyarg,
            daysFromCivil_eval_hi (era + 1) 0 (by omega) 3 1 ⟨le_refl 3, by norm_num⟩]
          have hms : ((3 : Int) - 3).toNat = 0 := by omega
          rw [hms]
          have hms0 : monthStart 0 = 0 := by decide
          have hdb0 : doyBase 0 = 0 := by decide
          rw [hms0, hdb0]
          omega

/-- The function `daysFromCivil` is linear in the day argument. -/
theorem daysFromCivil_day_linear (y m d : Int) :
    daysFromCivil y m d = daysFromCivil y m 1 + (d - 1) := by
  simp only [daysFromCivil]
  ring

/-! ### ECMAScript `Date` field accessors (UTC) -/

/-- Day number of an instant (ECMAScript `Day(t)`). -/
def dayIndex (t : Int) : Int := jsFloorDiv t dayMs

/-- Result of `setUTCHours(0, 0, 0, 0)`. -/
def startOfDayUTC (t : Int) : Int := dayMs * dayIndex t

/-- Result of `setUTCHours(23, 59, 59, 999)`. -/
def endOfDayUTC (t : Int) : Int := startOfDayUTC t + 86399999

/-- Milliseconds into the day. -/
def msOfDay (t : Int) : Int := t - startOfDayUTC t

/-- ECMAScript `getUTCDay` (0 = Sunday; day 0 = 1970-01-01 was a Thursday). -/
def getUTCDay (t : Int) : Int := (dayIndex t + 4) % 7

/-- ECMAScript `getUTCFullYear`. -/
def getUTCFullYear (t : Int) : Int := (civilFromDays (dayIndex t)).year

/-- ECMAScript `getUTCMonth` (0-based). -/
def getUTCMonth (t : Int) : Int := (civilFromDays (dayIndex t)).month - 1

/-- ECMAScript `getUTCDate` (day of month, 1-based). -/
def getUTCDate (t : Int) : Int := (civilFromDays (dayIndex t)).day

/-- ECMAScript `Date.UTC(y, monthIdx, d)` plus a milliseconds-of-day offset;
`monthIdx` is 0-based and is normalized as in `MakeDay`, and the day may be
any integer (e.g. `0` denotes the last day of the previous month). -/
def dateUTC (y monthIdx d ms : Int) : Int :=
  daysFromCivil (y + jsFloorDiv monthIdx 12) (monthIdx % 12 + 1) d * dayMs + ms

/-- ECMAScript `setUTCDate(v)`: replaces the day-of-month, keeping the time of
day; out-of-range values roll over, which makes the result linear in `v`. -/
def setUTCDateTo (t v : Int) : Int := t + (v - getUTCDate t) * dayMs

/-- ECMAScript `setUTCMonth(monthIdx, d)`: keeps the year and time of day. -/
def setUTCMonthTo (t monthIdx d : Int) : Int :=
  dateUTC (getUTCFullYear t) monthIdx d (msOfDay t)

/-! ### Data model (src/types/index.ts) -/

/-- The five rotation frequencies (a closed enum; the TypeScript `default:`
throw in frequency dispatch is unreachable for well-typed configs). -/
inductive Frequency
  | daily
  | weekly
  | biweekly
  | monthly
  | custom
deriving DecidableEq, Repr

/-- Embeds `RotationConfig.schedule`. -/
structure Schedule where
  dayOfWeek : Option Int
  dayOfMonth : Option Int
  time : Option String
deriving DecidableEq, Repr

/-- Embeds `RotationConfig`. -/
structure RotationConfig where
  frequency : Frequency
  interval : Option Int
  schedule : Option Schedule
deriving DecidableEq, Repr

/-- JavaScript `x || dflt` on an optional number (both `undefined` and `0`
are falsy). -/
def jsOrDefault (v : Option Int) (dflt : Int) : Int :=
  match v with
  | none => dflt
  | some x => if x = 0 then dflt else x

/-- The `config.schedule?.dayOfWeek || 1` idiom (note: Sunday = 0 is falsy
and therefore also falls back to Monday = 1). -/
def weekStartDayOf (config : RotationConfig) : Int :=
  jsOrDefault (config.schedule.bind fun s => s.dayOfWeek) 1

/-- The `config.interval || 7` idiom. -/
def intervalOrSeven (config : RotationConfig) : Int := jsOrDefault config.interval 7

/-- A roster member (`User`): the `startDate` ISO string is kept verbatim
because the code only ever tests its truthiness. -/
structure User where
  id : String
  name : Option String
  startDate : String
deriving DecidableEq, Repr

instance : Inhabited User := ⟨⟨"", none, ""⟩⟩

/-- Persisted rotation state. The two ISO-date strings are modelled by the
instants they denote; `currentIndex` is a natural number, translating the
data model's non-negativity invariant (its upper bound is deliberately NOT
part of the type, matching the code, which never validates it). -/
structure RotationState where
  users : List User
  currentIndex : Nat
  lastRotationDate : Int
  startDate : Int
  config : RotationConfig
deriving DecidableEq, Repr

/-- Embeds `WeekInfo` (the `type` field is always the literal `'week'`). -/
structure WeekInfo where
  weekNumber : Int
  periodNumber : Int
  startDate : Int
  endDate : Int
  year : Int
deriving DecidableEq, Repr

/-- The `PeriodInfo.type` discriminator. -/
inductive PeriodType
  | day
  | week
  | month
  | custom
deriving DecidableEq, Repr

/-- Embeds `PeriodInfo`. -/
structure PeriodInfo where
  periodNumber : Int
  startDate : Int
  endDate : Int
  year : Int
  type : PeriodType
deriving DecidableEq, Repr

/-! ### Period calculator (src/utils/dateUtils.ts) -/

/-- Embeds `getISOWeek` from dateUtils. -/
def getISOWeek (t : Int) : WeekInfo :=
  let dayNumber := jsMod (getUTCDay t + 6) 7
  let target1 := setUTCDateTo t (getUTCDate t - dayNumber + 3)
  let firstThursday := target1
  let target2 := setUTCMonthTo target1 0 1
  let target3 :=
    if getUTCDay target2 ≠ 4 then
      setUTCDateTo target2 (1 + jsMod (4 - getUTCDay target2 + 7) 7)
    else target2
  let weekNumber := 1 + jsCeilDiv (firstThursday - target3) 604800000
  let startDate := startOfDayUTC (setUTCDateTo t (getUTCDate t - dayNumber))
  let endDate := endOfDayUTC (setUTCDateTo startDate (getUTCDate startDate + 6))
  { weekNumber := weekNumber, periodNumber := weekNumber, startDate := startDate,
    endDate := endDate, year := getUTCFullYear target3 }

/-- Embeds `getCustomWeek` from dateUtils. -/
def getCustomWeek (t : Int) (weekStartDay : Int) : WeekInfo :=
  let currentDay := getUTCDay t
  let daysSinceWeekStart := jsMod (currentDay - weekStartDay + 7) 7
  let startDate := startOfDayUTC (setUTCDateTo t (getUTCDate t - daysSinceWeekStart))
  let endDate := endOfDayUTC (setUTCDateTo startDate (getUTCDate startDate + 6))
  let epochStart := dateUTC 2024 0 1 0
  let epochDayOfWeek := getUTCDay epochStart
  let daysToFirstWeekStart := jsMod (weekStartDay - epochDayOfWeek + 7) 7
  let epochWeekStart := setUTCDateTo epochStart (getUTCDate epochStart + daysToFirstWeekStart)
  let weeksSinceEpoch := jsFloorDiv (startDate - epochWeekStart) (7 * 24 * 60 * 60 * 1000)
  let weekNumber := weeksSinceEpoch + 1
  { weekNumber := weekNumber, periodNumber := weekNumber, startDate := startDate,
    endDate := endDate, year := getUTCFullYear t }

/-- Embeds `getISOWeeksInYear`; the source's local-time `new Date(year, 11, 28)` is
modelled at UTC (the deployment timezone defaults to UTC). -/
def getISOWeeksInYear (year : Int) : Int :=
  (getISOWeek (dateUTC year 11 28 0)).weekNumber

/-- Embeds `getWeeksBetween` (the TypeScript default `weekStartDay = 1` is passed
explicitly by all embedded callers). -/
def getWeeksBetween (startD endD : Int) (weekStartDay : Int) : Int :=
  let s := if weekStartDay = 1 then getISOWeek startD else getCustomWeek startD weekStartDay
  let e := if weekStartDay = 1 then getISOWeek endD else getCustomWeek endD weekStartDay
  if s.year = e.year then
    e.weekNumber - s.weekNumber
  else if weekStartDay ≠ 1 then
    jsFloorDiv (e.startDate - s.startDate) (7 * 24 * 60 * 60 * 1000)
  else
    let weeksInStartYear := getISOWeeksInYear s.year
    let weeksFromStart := weeksInStartYear - s.weekNumber
    weeksFromStart + e.weekNumber + (e.year - s.year - 1) * 52

/-- Embeds `getDayPeriod`. -/
def getDayPeriod (t : Int) : PeriodInfo :=
  let startDate := startOfDayUTC t
  let endDate := endOfDayUTC startDate
  let yearStart := dateUTC (getUTCFullYear t) 0 0 0
  let dayNumber := jsFloorDiv (t - yearStart) (1000 * 60 * 60 * 24)
  { periodNumber := dayNumber, startDate := startDate, endDate := endDate,
    year := getUTCFullYear t, type := .day }

/-- Embeds `getBiWeeklyPeriod`. -/
def getBiWeeklyPeriod (t : Int) (config : RotationConfig) : PeriodInfo :=
  let weekStartDay := weekStartDayOf config
  let weekInfo := if weekStartDay = 1 then getISOWeek t else getCustomWeek t weekStartDay
  { periodNumber := jsCeilDiv weekInfo.weekNumber 2, startDate := weekInfo.startDate,
    endDate := weekInfo.endDate + 7 * 24 * 60 * 60 * 1000,
    year := weekInfo.year, type := .week }

/-- Embeds `getMonthPeriod`. -/
def getMonthPeriod (t : Int) : PeriodInfo :=
  let startDate := dateUTC (getUTCFullYear t) (getUTCMonth t) 1 0
  let endDate := dateUTC (getUTCFullYear t) (getUTCMonth t + 1) 0 86399999
  { periodNumber := getUTCMonth t + 1, startDate := startDate, endDate := endDate,
    year := getUTCFullYear t, type := .month }

/-- Embeds `getCustomPeriod`. -/
def getCustomPeriod (t : Int) (intervalDays : Int) : PeriodInfo :=
  let epoch := dateUTC 2024 0 1 0
  let daysSinceEpoch := jsFloorDiv (t - epoch) (1000 * 60 * 60 * 24)
  let periodNumber := jsFloorDiv daysSinceEpoch intervalDays
  let startDate := startOfDayUTC (epoch + periodNumber * intervalDays * 24 * 60 * 60 * 1000)
  let endDate := endOfDayUTC (startDate + (intervalDays - 1) * 24 * 60 * 60 * 1000)
  { periodNumber := periodNumber, startDate := startDate, endDate := endDate,
    year := getUTCFullYear t, type := .custom }

/-- Embeds `getRotationPeriod`. -/
def getRotationPeriod (t : Int) (config : RotationConfig) : PeriodInfo :=
  match config.frequency with
  | .daily => getDayPeriod t
  | .weekly =>
    let weekStartDay := weekStartDayOf config
    let weekInfo := if weekStartDay = 1 then getISOWeek t else getCustomWeek t weekStartDay
    { periodNumber := weekInfo.weekNumber, startDate := weekInfo.startDate,
      endDate := weekInfo.endDate, year := weekInfo.year, type := .week }
  | .biweekly => getBiWeeklyPeriod t config
  | .monthly => getMonthPeriod t
  | .custom => getCustomPeriod t (intervalOrSeven config)

/-- Embeds `getDaysBetween`. -/
def getDaysBetween (startD endD : Int) : Int :=
  jsFloorDiv (endD - startD) (1000 * 60 * 60 * 24)

/-- Embeds `getMonthsBetween`. -/
def getMonthsBetween (startD endD : Int) : Int :=
  (getUTCFullYear endD - getUTCFullYear startD) * 12 + (getUTCMonth endD - getUTCMonth startD)

/-- Embeds `getPeriodsBetween`. -/
def getPeriodsBetween (startD endD : Int) (config : RotationConfig) : Int :=
  match config.frequency with
  | .daily => getDaysBetween startD endD
  | .weekly => getWeeksBetween startD endD (weekStartDayOf config)
  | .biweekly => jsFloorDiv (getWeeksBetween startD endD (weekStartDayOf config)) 2
  | .monthly => getMonthsBetween startD endD
  | .custom => jsFloorDiv (getDaysBetween startD endD) (intervalOrSeven config)

/-- Embeds `isNewRotationPeriod` (its string argument is modelled by the instant it
parses to). -/
def isNewRotationPeriod (lastRotationDate currentDate : Int) (config : RotationConfig) : Bool :=
  decide (0 < getPeriodsBetween lastRotationDate currentDate config)

/-! ### StorageService (src/services/StorageService.ts)

Load/save I/O is modelled by explicit state passing; `loadRotationState` and
`saveRotationState` perform the source's `validateRotationState` check (the
presence checks on the two state-level ISO strings are vacuous in the model,
which stores the parsed instants). -/

/-- Embeds `validateRotationConfig` as a boolean predicate (each `throw` becomes
`false`). The frequency-membership check always passes for the closed enum. -/
def validateRotationConfig (config : RotationConfig) : Bool :=
  (match config.frequency with
   | .custom =>
     match config.interval with
     | none => false
     | some i => decide (1 ≤ i)
   | _ => true)
  && (match config.schedule.bind fun s => s.dayOfWeek with
      | none => true
      | some d => decide (0 ≤ d ∧ d ≤ 6))
  && (match config.schedule.bind fun s => s.dayOfMonth with
      | none => true
      | some d => decide (1 ≤ d ∧ d ≤ 31))

/-- Embeds `validateRotationState`: users non-empty, `currentIndex` a non-negative
number (vacuous for `Nat`; there is deliberately no upper-bound check, as in
the source), config valid, and every user with truthy `id` and `startDate`. -/
def validateRotationState (state : RotationState) : Bool :=
  !state.users.isEmpty
  && validateRotationConfig state.config
  && state.users.all fun u => !(u.id == "") && !(u.startDate == "")

/-- Embeds `loadRotationState` (parse/IO is glue; the persisted state is the
argument, and validation failures surface as errors). -/
def loadRotationState (state : RotationState) : Except String RotationState :=
  if validateRotationState state then .ok state
  else .error "Failed to load rotation state: invalid rotation state"

/-- Embeds `saveRotationState` (validates before writing; the returned state is the
newly persisted one). -/
def saveRotationState (state : RotationState) : Except String RotationState :=
  if validateRotationState state then .ok state
  else .error "Failed to save rotation state: invalid rotation state"

/-- Embeds `updateRotationState`: re-load, set the two fields together, save. -/
def updateRotationState (state : RotationState) (currentIndex : Nat)
    (lastRotationDate : Int) : Except String RotationState :=
  match loadRotationState state with
  | .error e => .error e
  | .ok st =>
    saveRotationState { st with currentIndex := currentIndex, lastRotationDate := lastRotationDate }

/-- JavaScript `Array.prototype.findIndex`: index of the first match, else -1. -/
def jsFindIndex {α : Type} (p : α → Bool) : List α → Int
  | [] => -1
  | a :: rest =>
    if p a then 0
    else if jsFindIndex p rest < 0 then -1 else jsFindIndex p rest + 1

/-- JavaScript array subscription (out-of-range and negative are undefined). -/
def jsArrayGet (l : List User) (i : Int) : Option User :=
  if i < 0 then none else l[i.toNat]?

/-- Embeds `StorageService.removeUser`. -/
def removeUser (state : RotationState) (userId : String) : Except String RotationState :=
  match loadRotationState state with
  | .error e => .error e
  | .ok st =>
    if jsFindIndex (fun u => u.id == userId) st.users = -1 then
      .error ("User with ID " ++ userId ++ " not found in rotation")
    else
      if (st.users.eraseIdx (jsFindIndex (fun u => u.id == userId) st.users).toNat).length = 0 then
        .error "Cannot remove last user from rotation"
      else
        saveRotationState
          { st with
            users := st.users.eraseIdx (jsFindIndex (fun u => u.id == userId) st.users).toNat,
            currentIndex :=
              if jsFindIndex (fun u => u.id == userId) st.users < (st.currentIndex : Int) then
                st.currentIndex - 1
              else if jsFindIndex (fun u => u.id == userId) st.users = (st.currentIndex : Int) ∧
                  (st.users.length : Int) - 1 ≤ (st.currentIndex : Int) then 0
              else st.currentIndex }

/-- Embeds `StorageService.getCurrentUser`: reduces the index modulo the roster
length before subscripting (the non-null assertion is sound there). -/
def getCurrentUser (state : RotationState) : Except String User :=
  match loadRotationState state with
  | .error e => .error e
  | .ok st =>
    if st.users.length = 0 then .error "No users found in rotation"
    else .ok (st.users.getD (st.currentIndex % st.users.length) default)

/-! ### KVStorageService (src/services/KVStorageService.ts)

The KV backend performs no validation on load or save. -/

/-- Embeds `KVStorageService.updateRotationState`: one combined write of the index
and the period-anchor timestamp. -/
def kvUpdateRotationState (state : RotationState) (currentIndex : Nat)
    (lastRotationDate : Int) : RotationState :=
  { state with currentIndex := currentIndex, lastRotationDate := lastRotationDate }

/-- Embeds `KVStorageService.advanceToNextUser` (the manual skip): successor index
modulo the roster length, one combined persisted write, returns the new user. -/
def advanceToNextUser (state : RotationState) (now : Int) :
    Except String (User × RotationState) :=
  if state.users.length = 0 then .error "No users in rotation"
  else
    match state.users[(state.currentIndex + 1) % state.users.length]? with
    | none =>
      .error ("Invalid next index: " ++ toString ((state.currentIndex + 1) % state.users.length))
    | some nextUser =>
      .ok (nextUser, kvUpdateRotationState state ((state.currentIndex + 1) % state.users.length) now)

/-! ### RotationService (src/services/RotationService.ts) -/

/-- Embeds `RotationService.getUserAtIndex`: "bounds checking" via the JavaScript
`%` operator (truncating, so a negative index stays negative) followed by a
subscript whose `undefined` case throws. -/
def getUserAtIndex (state : RotationState) (index : Int) : Except String User :=
  if state.users.length = 0 then .error "No users in rotation"
  else
    match jsArrayGet state.users (jsMod index (state.users.length : Int)) with
    | none =>
      .error ("User not found at index " ++ toString (jsMod index (state.users.length : Int)))
    | some u => .ok u

/-- Embeds `RotationService.getCurrentForumOwnerReadOnly`. -/
def getCurrentForumOwnerReadOnly (state : RotationState) : Except String User :=
  match loadRotationState state with
  | .error e => .error e
  | .ok st => getUserAtIndex st (st.currentIndex : Int)

/-- Embeds `RotationService.previewForumOwner`: pure of state and date (returns no
new state — it never writes). -/
def previewForumOwner (state : RotationState) (targetDate : Int) : Except String User :=
  match loadRotationState state with
  | .error e => .error e
  | .ok st =>
    getUserAtIndex st
      (jsMod (getPeriodsBetween st.startDate targetDate st.config) (st.users.length : Int))

/-- Embeds `RotationService.setCurrentUser`. -/
def setCurrentUser (state : RotationState) (userId : String) (now : Int) :
    Except String (User × RotationState) :=
  match loadRotationState state with
  | .error e => .error e
  | .ok st =>
    if jsFindIndex (fun u => u.id == userId) st.users = -1 then
      .error ("User with ID " ++ userId ++ " not found in rotation")
    else
      match updateRotationState st (jsFindIndex (fun u => u.id == userId) st.users).toNat now with
      | .error e => .error e
      | .ok st2 =>
        .ok (st.users.getD (jsFindIndex (fun u => u.id == userId) st.users).toNat default, st2)

/-- Embeds `RotationService.shouldAdvanceRotation`: the period check, then the
"missed periods" fallback recomputation. -/
def shouldAdvanceRotation (state : RotationState) (currentDate : Int) : Bool :=
  if isNewRotationPeriod state.lastRotationDate currentDate state.config then true
  else decide (0 < getPeriodsBetween state.lastRotationDate currentDate state.config)

/-! ### Arithmetic facts about the date primitives -/

theorem dayIndex_bounds (t : Int) :
    86400000 * dayIndex t ≤ t ∧ t < 86400000 * dayIndex t + 86400000 := by
  unfold dayIndex jsFloorDiv dayMs
  rw [Int.fdiv_eq_ediv _ (by norm_num)]
  omega

theorem startOfDayUTC_bounds (t : Int) :
    startOfDayUTC t ≤ t ∧ t < startOfDayUTC t + 86400000 := by
  have h := dayIndex_bounds t
  unfold startOfDayUTC dayMs
  omega

theorem startOfDayUTC_idem (t : Int) : startOfDayUTC (startOfDayUTC t) = startOfDayUTC t := by
  unfold startOfDayUTC dayIndex jsFloorDiv dayMs
  rw [Int.fdiv_eq_ediv _ (by norm_num), Int.fdiv_eq_ediv _ (by norm_num)]
  omega

theorem startOfDayUTC_shift (t k : Int) :
    startOfDayUTC (startOfDayUTC t + k * 86400000) = startOfDayUTC t + k * 86400000 := by
  unfold startOfDayUTC dayIndex jsFloorDiv dayMs
  rw [Int.fdiv_eq_ediv _ (by norm_num), Int.fdiv_eq_ediv _ (by norm_num)]
  omega

theorem jsMod_range_of_nonneg {a : Int} (ha : 0 ≤ a) {b : Int} (hb : 0 < b) :
    0 ≤ jsMod a b ∧ jsMod a b < b := by
  unfold jsMod
  rw [Int.tmod_eq_emod ha (le_of_lt hb)]
  exact ⟨Int.emod_nonneg a (ne_of_gt hb), Int.emod_lt_of_pos a hb⟩

theorem getUTCDay_range (t : Int) : 0 ≤ getUTCDay t ∧ getUTCDay t < 7 := by
  unfold getUTCDay
  omega

theorem setUTCDateTo_sub (t k : Int) :
    setUTCDateTo t (getUTCDate t - k) = t - k * 86400000 := by
  unfold setUTCDateTo dayMs
  ring

theorem setUTCDateTo_add (t k : Int) :
    setUTCDateTo t (getUTCDate t + k) = t + k * 86400000 := by
  unfold setUTCDateTo dayMs
  ring

theorem jsFloorDiv_char (a : Int) {b : Int} (hb : 0 < b) :
    b * jsFloorDiv a b ≤ a ∧ a < b * jsFloorDiv a b + b := by
  unfold jsFloorDiv
  rw [Int.fdiv_eq_ediv _ (le_of_lt hb)]
  have h1 := Int.ediv_add_emod a b
  have h2 := Int.emod_nonneg a (ne_of_gt hb)
  have h3 := Int.emod_lt_of_pos a hb
  omega

/-- The seven-day window built by the week functions contains the queried
instant whenever the back-off is between 0 and 6 days. -/
theorem weekWindow (t dN : Int) (h0 : 0 ≤ dN) (h6 : dN ≤ 6) :
    startOfDayUTC (setUTCDateTo t (getUTCDate t - dN)) ≤ t ∧
    t ≤ endOfDayUTC (setUTCDateTo (startOfDayUTC (setUTCDateTo t (getUTCDate t - dN)))
          (getUTCDate (startOfDayUTC (setUTCDateTo t (getUTCDate t - dN))) + 6)) := by
  rw [setUTCDateTo_sub, setUTCDateTo_add]
  have h1 := startOfDayUTC_bounds (t - dN * 86400000)
  have h2 := startOfDayUTC_shift (t - dN * 86400000) 6
  unfold endOfDayUTC
  rw [h2]
  omega

theorem getISOWeek_startDate (t : Int) :
    (getISOWeek t).startDate
      = startOfDayUTC (setUTCDateTo t (getUTCDate t - jsMod (getUTCDay t + 6) 7)) := rfl

theorem getISOWeek_endDate (t : Int) :
    (getISOWeek t).endDate
      = endOfDayUTC (setUTCDateTo (getISOWeek t).startDate
          (getUTCDate (getISOWeek t).startDate + 6)) := rfl

theorem getISOWeek_window (t : Int) :
    (getISOWeek t).startDate ≤ t ∧ t ≤ (getISOWeek t).endDate := by
  have hdow := getUTCDay_range t
  have hd := jsMod_range_of_nonneg (a := getUTCDay t + 6) (by omega) (b := 7) (by norm_num)
  rw [getISOWeek_endDate, getISOWeek_startDate]
  exact weekWindow t _ hd.1 (by omega)

theorem getCustomWeek_startDate (t w : Int) :
    (getCustomWeek t w).startDate
      = startOfDayUTC (setUTCDateTo t (getUTCDate t - jsMod (getUTCDay t - w + 7) 7)) := rfl

theorem getCustomWeek_endDate (t w : Int) :
    (getCustomWeek t w).endDate
      = endOfDayUTC (setUTCDateTo (getCustomWeek t w).startDate
          (getUTCDate (getCustomWeek t w).startDate + 6)) := rfl

theorem getCustomWeek_window (t w : Int) (hw0 : 0 ≤ w) (hw6 : w ≤ 6) :
    (getCustomWeek t w).startDate ≤ t ∧ t ≤ (getCustomWeek t w).endDate := by
  have hdow := getUTCDay_range t
  have hd := jsMod_range_of_nonneg (a := getUTCDay t - w + 7) (by omega) (b := 7) (by norm_num)
  rw [getCustomWeek_endDate, getCustomWeek_startDate]
  exact weekWindow t _ hd.1 (by omega)

theorem getDayPeriod_window (t : Int) :
    (getDayPeriod t).startDate ≤ t ∧ t ≤ (getDayPeriod t).endDate := by
  have h := startOfDayUTC_bounds t
  have hs : (getDayPeriod t).startDate = startOfDayUTC t := rfl
  have he : (getDayPeriod t).endDate = endOfDayUTC (startOfDayUTC t) := rfl
  rw [hs, he]
  unfold endOfDayUTC
  rw [startOfDayUTC_idem]
  omega

theorem getMonthPeriod_window (t : Int) :
    (getMonthPeriod t).startDate ≤ t ∧ t ≤ (getMonthPeriod t).endDate := by
  obtain ⟨hm1, hm2, hd1, hd31, hrt, hnext⟩ := civilFromDays_correct (dayIndex t)
  have hb := dayIndex_bounds t
  have hs : (getMonthPeriod t).startDate = dateUTC (getUTCFullYear t) (getUTCMonth t) 1 0 := rfl
  have he : (getMonthPeriod t).endDate
      = dateUTC (getUTCFullYear t) (getUTCMonth t + 1) 0 86399999 := rfl
  rw [hs, he]
  unfold dateUTC getUTCFullYear getUTCMonth dayMs
  obtain ⟨c, hc⟩ : ∃ c, civilFromDays (dayIndex t) = c := ⟨_, rfl⟩
  rw [hc] at hm1 hm2 hd1 hd31 hrt hnext ⊢
  have hlin := daysFromCivil_day_linear c.year c.month c.day
  have hA : daysFromCivil c.year c.month 1 = dayIndex t - (c.day - 1) := by omega
  have e1 : jsFloorDiv (c.month - 1) 12 = 0 := by
    unfold jsFloorDiv
    rw [Int.fdiv_eq_ediv _ (by norm_num)]
    omega
  have e2 : (c.month - 1) % 12 + 1 = c.month := by omega
  rw [e1, e2]
  simp only [add_zero]
  unfold nextMonthFirst at hnext
  constructor
  · rw [hA]
    omega
  · by_cases h12 : c.month = 12
    · rw [if_pos h12] at hnext
      have e3 : jsFloorDiv (c.month - 1 + 1) 12 = 1 := by
        unfold jsFloorDiv
        rw [Int.fdiv_eq_ediv _ (by norm_num)]
        omega
      have e4 : (c.month - 1 + 1) % 12 + 1 = 1 := by
        rw [h12]
        decide
      rw [e3, e4]
      have hlin2 := daysFromCivil_day_linear (c.year + 1) 1 0
      omega
    · rw [if_neg h12] at hnext
      have e3 : jsFloorDiv (c.month - 1 + 1) 12 = 0 := by
        unfold jsFloorDiv
        rw [Int.fdiv_eq_ediv _ (by norm_num)]
        omega
      have e4 : (c.month - 1 + 1) % 12 + 1 = c.month + 1 := by omega
      rw [e3, e4]
      simp only [add_zero]
      have hlin2 := daysFromCivil_day_linear c.year (c.month + 1) 0
      omega

theorem getCustomPeriod_window (t i : Int) (hi : 1 ≤ i) :
    (getCustomPeriod t i).startDate ≤ t ∧ t ≤ (getCustomPeriod t i).endDate := by
  have hepoch : dateUTC 2024 0 1 0 = 1704067200000 := by decide
  have hs : (getCustomPeriod t i).startDate
      = startOfDayUTC (dateUTC 2024 0 1 0
          + jsFloorDiv (jsFloorDiv (t - dateUTC 2024 0 1 0) (1000 * 60 * 60 * 24)) i
              * i * 24 * 60 * 60 * 1000) := rfl
  have he : (getCustomPeriod t i).endDate
      = endOfDayUTC ((getCustomPeriod t i).startDate + (i - 1) * 24 * 60 * 60 * 1000) := rfl
  rw [he, hs, hepoch]
  have hmul : ∀ x : Int, x * 24 * 60 * 60 * 1000 = x * 86400000 := fun x => by ring
  norm_num
  simp only [hmul]
  obtain ⟨dse, hdse⟩ : ∃ d, jsFloorDiv (t - 1704067200000) 86400000 = d := ⟨_, rfl⟩
  have hdseb := jsFloorDiv_char (t - 1704067200000) (show (0 : Int) < 86400000 by norm_num)
  rw [hdse] at hdseb ⊢
  have hpb := jsFloorDiv_char dse (show (0 : Int) < i by omega)
  obtain ⟨p, hp⟩ : ∃ p, jsFloorDiv dse i = p := ⟨_, rfl⟩
  rw [hp] at hpb ⊢
  obtain ⟨K, hK⟩ : ∃ K, p * i = K := ⟨_, rfl⟩
  have hKc : i * p = K := by rw [← hK]; ring
  rw [hK]
  rw [hKc] at hpb
  have hst : startOfDayUTC (1704067200000 + K * 86400000)
      = 1704067200000 + K * 86400000 := by
    unfold startOfDayUTC dayIndex jsFloorDiv dayMs
    rw [Int.fdiv_eq_ediv _ (by norm_num)]
    omega
  rw [hst]
  unfold endOfDayUTC
  have hst2 : startOfDayUTC (1704067200000 + K * 86400000 + (i - 1) * 86400000)
      = 1704067200000 + K * 86400000 + (i - 1) * 86400000 := by
    unfold startOfDayUTC dayIndex jsFloorDiv dayMs
    rw [Int.fdiv_eq_ediv _ (by norm_num)]
    omega
  rw [hst2]
  omega

/-! ### Consequences of config validation -/

theorem weekStartDayOf_range (config : RotationConfig)
    (h : validateRotationConfig config = true) :
    1 ≤ weekStartDayOf config ∧ weekStartDayOf config ≤ 6 := by
  unfold validateRotationConfig at h
  simp only [Bool.and_eq_true] at h
  obtain ⟨⟨h1, h2⟩, h3⟩ := h
  unfold weekStartDayOf jsOrDefault
  obtain ⟨v, hveq⟩ : ∃ v, (config.schedule.bind fun s => s.dayOfWeek) = v := ⟨_, rfl⟩
  rw [hveq] at h2 ⊢
  cases v with
  | none =>
    show (1 : Int) ≤ 1 ∧ (1 : Int) ≤ 6
    norm_num
  | some d =>
    have h2p : 0 ≤ d ∧ d ≤ 6 := of_decide_eq_true h2
    show (1 : Int) ≤ (if d = 0 then 1 else d) ∧ (if d = 0 then 1 else d) ≤ 6
    split_ifs <;> omega

theorem intervalOrSeven_pos (config : RotationConfig) (hf : config.frequency = .custom)
    (h : validateRotationConfig config = true) : 1 ≤ intervalOrSeven config := by
  unfold validateRotationConfig at h
  simp only [Bool.and_eq_true] at h
  obtain ⟨⟨h1, _⟩, _⟩ := h
  rw [hf] at h1
  unfold intervalOrSeven jsOrDefault
  obtain ⟨v, hveq⟩ : ∃ v, config.interval = v := ⟨_, rfl⟩
  rw [hveq] at h1 ⊢
  cases v with
  | none => exact Bool.noConfusion h1
  | some i =>
    have h1p : 1 ≤ i := of_decide_eq_true h1
    show (1 : Int) ≤ if i = 0 then 7 else i
    split_ifs <;> omega

/-- C2: for every valid rotation configuration (any of the five frequencies,
with a positive interval when custom) and every date, the computed period
window contains the date: `startDate ≤ t ≤ endDate`. -/
theorem claim_C2 (t : Int) (config : RotationConfig)
    (hv : validateRotationConfig config = true) :
    (getRotationPeriod t config).startDate ≤ t ∧ t ≤ (getRotationPeriod t config).endDate := by
  obtain ⟨f, hf⟩ : ∃ f, config.frequency = f := ⟨_, rfl⟩
  unfold getRotationPeriod
  rw [hf]
  cases f with
  | daily => exact getDayPeriod_window t
  | weekly =>
    obtain ⟨hw1, hw6⟩ := weekStartDayOf_range config hv
    show (if weekStartDayOf config = 1 then getISOWeek t
            else getCustomWeek t (weekStartDayOf config)).startDate ≤ t ∧
         t ≤ (if weekStartDayOf config = 1 then getISOWeek t
            else getCustomWeek t (weekStartDayOf config)).endDate
    by_cases hw : weekStartDayOf config = 1
    · rw [if_pos hw]
      exact getISOWeek_window t
    · rw [if_neg hw]
      exact getCustomWeek_window t _ (by omega) hw6
  | biweekly =>
    obtain ⟨hw1, hw6⟩ := weekStartDayOf_range config hv
    show (if weekStartDayOf config = 1 then getISOWeek t
            else getCustomWeek t (weekStartDayOf config)).startDate ≤ t ∧
         t ≤ (if weekStartDayOf config = 1 then getISOWeek t
            else getCustomWeek t (weekStartDayOf config)).endDate + 7 * 24 * 60 * 60 * 1000
    by_cases hw : weekStartDayOf config = 1
    · rw [if_pos hw]
      have h := getISOWeek_window t
      constructor
      · exact h.1
      · have := h.2
        omega
    · rw [if_neg hw]
      have h := getCustomWeek_window t _ (show 0 ≤ weekStartDayOf config by omega) hw6
      constructor
      · exact h.1
      · have := h.2
        omega
  | monthly => exact getMonthPeriod_window t
  | custom => exact getCustomPeriod_window t _ (intervalOrSeven_pos config hf hv)

/-- Custom three-day configuration used to witness C2. -/
def customCfg3 : RotationConfig := ⟨.custom, some 3, none⟩

/-- Witness for C2 at a custom three-day configuration and a concrete date. -/
theorem claim_C2_witness :
    (getRotationPeriod 1704153600123 customCfg3).startDate ≤ 1704153600123 ∧
    1704153600123 ≤ (getRotationPeriod 1704153600123 customCfg3).endDate :=
  claim_C2 1704153600123 customCfg3 (by decide)

/-- Daily configuration used for the C3 counterexample. -/
def dailyConfig : RotationConfig := ⟨.daily, none, none⟩

/-- Counterexample to C3 as stated: for the daily frequency with a one
millisecond difference (no whole-day alignment), the period count is not
antisymmetric — `periodsBetween(0, 1ms) = 0` but `periodsBetween(1ms, 0) = -1`. -/
theorem claim_C3_counterexample :
    ¬(getPeriodsBetween 0 1 dailyConfig = -getPeriodsBetween 1 0 dailyConfig) := by
  decide

/-- C3 (amended): antisymmetry of `periodsBetween` holds unconditionally for
the monthly frequency, and for the daily and custom frequencies exactly when
the difference is a whole multiple of the period length in milliseconds. -/
theorem claim_C3 (a b : Int) (config : RotationConfig) :
    (config.frequency = .monthly →
      getPeriodsBetween a b config = -getPeriodsBetween b a config)
    ∧ (config.frequency = .daily → (86400000 : Int) ∣ b - a →
      getPeriodsBetween a b config = -getPeriodsBetween b a config)
    ∧ (config.frequency = .custom → 1 ≤ intervalOrSeven config →
      (intervalOrSeven config * 86400000 : Int) ∣ b - a →
      getPeriodsBetween a b config = -getPeriodsBetween b a config) := by
  refine ⟨?_, ?_, ?_⟩
  · intro hf
    unfold getPeriodsBetween
    rw [hf]
    show getMonthsBetween a b = -getMonthsBetween b a
    unfold getMonthsBetween
    ring
  · intro hf hdvd
    unfold getPeriodsBetween
    rw [hf]
    show getDaysBetween a b = -getDaysBetween b a
    unfold getDaysBetween jsFloorDiv
    rw [show (1000 * 60 * 60 * 24 : Int) = 86400000 from by norm_num,
      Int.fdiv_eq_ediv _ (show (0 : Int) ≤ 86400000 from by norm_num),
      Int.fdiv_eq_ediv _ (show (0 : Int) ≤ 86400000 from by norm_num)]
    omega
  · intro hf hpos hdvd
    unfold getPeriodsBetween
    rw [hf]
    show jsFloorDiv (getDaysBetween a b) (intervalOrSeven config)
        = -jsFloorDiv (getDaysBetween b a) (intervalOrSeven config)
    obtain ⟨i, hi⟩ : ∃ i, intervalOrSeven config = i := ⟨_, rfl⟩
    rw [hi] at hpos hdvd ⊢
    obtain ⟨k, hk⟩ := hdvd
    unfold getDaysBetween
    have h1 : jsFloorDiv (b - a) (1000 * 60 * 60 * 24) = i * k := by
      unfold jsFloorDiv
      rw [show (1000 * 60 * 60 * 24 : Int) = 86400000 from by norm_num, hk,
        show i * 86400000 * k = 86400000 * (i * k) from by ring,
        Int.fdiv_eq_ediv _ (show (0 : Int) ≤ 86400000 from by norm_num),
        Int.mul_ediv_cancel_left _ (show (86400000 : Int) ≠ 0 from by norm_num)]
    have h2 : jsFloorDiv (a - b) (1000 * 60 * 60 * 24) = i * -k := by
      unfold jsFloorDiv
      rw [show (1000 * 60 * 60 * 24 : Int) = 86400000 from by norm_num,
        show a - b = -(b - a) from by ring, hk,
        show -(i * 86400000 * k) = 86400000 * (i * -k) from by ring,
        Int.fdiv_eq_ediv _ (show (0 : Int) ≤ 86400000 from by norm_num),
        Int.mul_ediv_cancel_left _ (show (86400000 : Int) ≠ 0 from by norm_num)]
    rw [h1, h2]
    unfold jsFloorDiv
    rw [Int.fdiv_eq_ediv (i * k) (show (0 : Int) ≤ i from by omega),
      Int.fdiv_eq_ediv (i * -k) (show (0 : Int) ≤ i from by omega),
      Int.mul_ediv_cancel_left _ (show i ≠ 0 from by omega),
      Int.mul_ediv_cancel_left _ (show i ≠ 0 from by omega)]
    ring

/-- Witness for the amended C3, exercising the daily divisibility branch at a
whole-day difference. -/
theorem claim_C3_witness :
    getPeriodsBetween 0 86400000 dailyConfig = -getPeriodsBetween 86400000 0 dailyConfig :=
  (claim_C3 0 86400000 dailyConfig).2.1 rfl ⟨1, by norm_num⟩

/-- Weekly ISO (Monday-start) configuration from the spec's scenarios. -/
def weeklyIsoConfig : RotationConfig := ⟨.weekly, none, some ⟨some 1, none, some "09:00"⟩⟩

/-- C5: for the weekly frequency with ISO weeks (`weekStartDay = 1`),
`periodsBetween` is `endWeek - startWeek` within one ISO year, and across
year boundaries it is the remaining weeks of the start year plus the end
week number plus 52 per full intervening year (the 52-week approximation,
preserved as-is). -/
theorem claim_C5 (a b : Int) (config : RotationConfig)
    (hf : config.frequency = .weekly) (hw : weekStartDayOf config = 1) :
    getPeriodsBetween a b config =
      if (getISOWeek a).year = (getISOWeek b).year then
        (getISOWeek b).weekNumber - (getISOWeek a).weekNumber
      else
        (getISOWeeksInYear (getISOWeek a).year - (getISOWeek a).weekNumber)
          + (getISOWeek b).weekNumber
          + 52 * ((getISOWeek b).year - (getISOWeek a).year - 1) := by
  unfold getPeriodsBetween
  rw [hf, hw]
  show getWeeksBetween a b 1 = _
  unfold getWeeksBetween
  have e1 : (if (1 : Int) = 1 then getISOWeek a else getCustomWeek a 1) = getISOWeek a :=
    if_pos rfl
  have e2 : (if (1 : Int) = 1 then getISOWeek b else getCustomWeek b 1) = getISOWeek b :=
    if_pos rfl
  have e3 : ∀ x y : Int, (if (1 : Int) ≠ 1 then x else y) = y := fun x y => if_neg (by simp)
  simp only [e1, e2, e3]
  split_ifs <;> ring

/-- Witness for C5 at the spec's weekly ISO configuration and two concrete
dates in January 2024. -/
theorem claim_C5_witness :
    getPeriodsBetween 1704672000000 1705276800000 weeklyIsoConfig =
      if (getISOWeek 1704672000000).year = (getISOWeek 1705276800000).year then
        (getISOWeek 1705276800000).weekNumber - (getISOWeek 1704672000000).weekNumber
      else
        (getISOWeeksInYear (getISOWeek 1704672000000).year
            - (getISOWeek 1704672000000).weekNumber)
          + (getISOWeek 1705276800000).weekNumber
          + 52 * ((getISOWeek 1705276800000).year - (getISOWeek 1704672000000).year - 1) :=
  claim_C5 1704672000000 1705276800000 weeklyIsoConfig rfl (by decide)

/-- C6: `isNewPeriod` is exactly `periodsBetween > 0`, and the spec's two
concrete weekly scenarios hold: 2024-01-08 to 2024-01-15 crosses a week
boundary, while 2024-01-02 to 2024-01-05 stays within one week. -/
theorem claim_C6 :
    (∀ (last current : Int) (config : RotationConfig),
      isNewRotationPeriod last current config
        = decide (0 < getPeriodsBetween last current config))
    ∧ isNewRotationPeriod 1704672000000 1705276800000 weeklyIsoConfig = true
    ∧ isNewRotationPeriod 1704153600000 1704412800000 weeklyIsoConfig = false :=
  ⟨fun _ _ _ => rfl, by decide, by decide⟩

/-! ### Helper lemmas about the service layer -/

theorem jsFindIndex_cons {α : Type} (p : α → Bool) (a : α) (rest : List α) :
    jsFindIndex p (a :: rest)
      = if p a then 0
        else if jsFindIndex p rest < 0 then -1 else jsFindIndex p rest + 1 := rfl

theorem jsFindIndex_bound {α : Type} (p : α → Bool) :
    ∀ l : List α, jsFindIndex p l = -1 ∨
      (0 ≤ jsFindIndex p l ∧ jsFindIndex p l < (l.length : Int)) := by
  intro l
  induction l with
  | nil => exact Or.inl rfl
  | cons a rest ih =>
    rw [jsFindIndex_cons]
    by_cases hp : p a
    · rw [if_pos hp]
      right
      simp only [List.length_cons]
      omega
    · rw [if_neg hp]
      rcases ih with h | ⟨h0, hlt⟩
      · rw [if_pos (show jsFindIndex p rest < 0 by omega)]
        exact Or.inl rfl
      · rw [if_neg (show ¬jsFindIndex p rest < 0 by omega)]
        right
        simp only [List.length_cons]
        omega

theorem jsFindIndex_get {α : Type} (p : α → Bool) :
    ∀ (l : List α) (i : Nat), jsFindIndex p l = (i : Int) →
      ∃ hlt : i < l.length, p (l.get ⟨i, hlt⟩) = true := by
  intro l
  induction l with
  | nil =>
    intro i h
    rw [show jsFindIndex p ([] : List α) = -1 from rfl] at h
    exact absurd h (by omega)
  | cons a rest ih =>
    intro i h
    rw [jsFindIndex_cons] at h
    by_cases hp : p a
    · rw [if_pos hp] at h
      have hi : i = 0 := by omega
      subst hi
      exact ⟨Nat.succ_pos _, hp⟩
    · rw [if_neg hp] at h
      by_cases hr : jsFindIndex p rest < 0
      · rw [if_pos hr] at h
        exact absurd h (by omega)
      · rw [if_neg hr] at h
        obtain ⟨j, hj⟩ : ∃ j : Nat, jsFindIndex p rest = (j : Int) :=
          ⟨(jsFindIndex p rest).toNat, (Int.toNat_of_nonneg (by omega)).symm⟩
        rw [hj] at h
        have hi : i = j + 1 := by omega
        subst hi
        obtain ⟨hjl, hpj⟩ := ih j hj
        refine ⟨by simp only [List.length_cons]; omega, ?_⟩
        simpa using hpj

theorem jsFindIndex_eq_neg_one_iff {α : Type} (p : α → Bool) :
    ∀ l : List α, (jsFindIndex p l = -1 ↔ ∀ u ∈ l, p u = false) := by
  intro l
  induction l with
  | nil => simp [jsFindIndex]
  | cons a rest ih =>
    rw [jsFindIndex_cons]
    by_cases hp : p a
    · rw [if_pos hp]
      constructor
      · intro hcon
        exact absurd hcon (by omega)
      · intro hall
        have := hall a (by simp)
        rw [hp] at this
        exact Bool.noConfusion this
    · rw [if_neg hp]
      rcases jsFindIndex_bound p rest with h | ⟨h0, hlt⟩
      · rw [if_pos (show jsFindIndex p rest < 0 by omega)]
        constructor
        · intro _
          intro u hu
          rcases List.mem_cons.mp hu with rfl | hmem
          · exact Bool.eq_false_iff.mpr hp
          · exact (ih.mp h) u hmem
        · intro _
          rfl
      · rw [if_neg (show ¬jsFindIndex p rest < 0 by omega)]
        constructor
        · intro hcon
          exact absurd hcon (by omega)
        · intro hall
          exfalso
          obtain ⟨j, hj⟩ : ∃ j : Nat, jsFindIndex p rest = (j : Int) :=
            ⟨(jsFindIndex p rest).toNat, (Int.toNat_of_nonneg h0).symm⟩
          obtain ⟨hjl, hpj⟩ := jsFindIndex_get p rest j hj
          have := hall (rest.get ⟨j, hjl⟩)
            (List.mem_cons_of_mem a (List.get_mem rest j hjl))
          rw [hpj] at this
          exact Bool.noConfusion this

theorem jsMod_natCast (i n : Nat) :
    jsMod (i : Int) (n : Int) = ((i % n : Nat) : Int) := by
  unfold jsMod
  rw [Int.tmod_eq_emod (by omega) (by omega)]
  push_cast
  rfl

theorem validate_users_pos (st : RotationState) (hv : validateRotationState st = true) :
    0 < st.users.length := by
  unfold validateRotationState at hv
  simp only [Bool.and_eq_true] at hv
  obtain ⟨⟨h1, _⟩, _⟩ := hv
  cases hul : st.users with
  | nil =>
    rw [hul] at h1
    exact Bool.noConfusion h1
  | cons a rest =>
    exact Nat.succ_pos _

theorem getD_eq_get (l : List User) (i : Nat) (h : i < l.length) :
    l.getD i default = l.get ⟨i, h⟩ := by
  simp [List.getD_eq_getElem?_getD, List.getElem?_eq_getElem h, List.get_eq_getElem]

theorem getUserAtIndex_natCast (st : RotationState) (i : Nat) (h : 0 < st.users.length) :
    getUserAtIndex st (i : Int)
      = .ok (st.users.get ⟨i % st.users.length, Nat.mod_lt _ h⟩) := by
  unfold getUserAtIndex
  rw [if_neg (by omega), jsMod_natCast i st.users.length]
  unfold jsArrayGet
  rw [if_neg (by omega), Int.toNat_natCast, List.getElem?_eq_getElem (Nat.mod_lt _ h)]
  simp [List.get_eq_getElem]

/-! Step equations reducing the load/validate prelude of each operation. -/

theorem previewForumOwner_ok (st : RotationState) (targetDate : Int)
    (hv : validateRotationState st = true) :
    previewForumOwner st targetDate
      = getUserAtIndex st
          (jsMod (getPeriodsBetween st.startDate targetDate st.config)
            (st.users.length : Int)) := by
  unfold previewForumOwner loadRotationState
  rw [if_pos hv]

theorem getCurrentForumOwnerReadOnly_ok (st : RotationState)
    (hv : validateRotationState st = true) :
    getCurrentForumOwnerReadOnly st = getUserAtIndex st (st.currentIndex : Int) := by
  unfold getCurrentForumOwnerReadOnly loadRotationState
  rw [if_pos hv]

theorem getCurrentForumOwnerReadOnly_load_error (st : RotationState)
    (hv : ¬validateRotationState st = true) :
    getCurrentForumOwnerReadOnly st
      = .error "Failed to load rotation state: invalid rotation state" := by
  unfold getCurrentForumOwnerReadOnly loadRotationState
  rw [if_neg hv]

theorem getCurrentUser_ok (st : RotationState) (hv : validateRotationState st = true) :
    getCurrentUser st
      = (if st.users.length = 0 then .error "No users found in rotation"
        else .ok (st.users.getD (st.currentIndex % st.users.length) default)) := by
  unfold getCurrentUser loadRotationState
  rw [if_pos hv]

theorem getCurrentUser_load_error (st : RotationState)
    (hv : ¬validateRotationState st = true) :
    getCurrentUser st = .error "Failed to load rotation state: invalid rotation state" := by
  unfold getCurrentUser loadRotationState
  rw [if_neg hv]

theorem updateRotationState_ok (st : RotationState) (i : Nat) (now : Int)
    (hv : validateRotationState st = true) :
    updateRotationState st i now
      = .ok { st with currentIndex := i, lastRotationDate := now } := by
  have h1 : updateRotationState st i now
      = saveRotationState { st with currentIndex := i, lastRotationDate := now } := by
    unfold updateRotationState loadRotationState
    rw [if_pos hv]
  rw [h1]
  unfold saveRotationState
  rw [if_pos (show validateRotationState
      { st with currentIndex := i, lastRotationDate := now } = true from hv)]

theorem setCurrentUser_ok (st : RotationState) (userId : String) (now : Int)
    (hv : validateRotationState st = true) :
    setCurrentUser st userId now
      = (if jsFindIndex (fun u => u.id == userId) st.users = -1 then
          Except.error ("User with ID " ++ userId ++ " not found in rotation")
        else
          match updateRotationState st
              (jsFindIndex (fun u => u.id == userId) st.users).toNat now with
          | .error e => .error e
          | .ok st2 =>
            .ok (st.users.getD (jsFindIndex (fun u => u.id == userId) st.users).toNat default,
              st2)) := by
  unfold setCurrentUser loadRotationState
  rw [if_pos hv]

theorem removeUser_ok (st : RotationState) (userId : String)
    (hv : validateRotationState st = true) :
    removeUser st userId
      = (if jsFindIndex (fun u => u.id == userId) st.users = -1 then
          .error ("User with ID " ++ userId ++ " not found in rotation")
        else if (st.users.eraseIdx
            (jsFindIndex (fun u => u.id == userId) st.users).toNat).length = 0 then
          .error "Cannot remove last user from rotation"
        else
          saveRotationState
            { st with
              users := st.users.eraseIdx
                (jsFindIndex (fun u => u.id == userId) st.users).toNat,
              currentIndex :=
                if jsFindIndex (fun u => u.id == userId) st.users
                    < (st.currentIndex : Int) then st.currentIndex - 1
                else if jsFindIndex (fun u => u.id == userId) st.users
                      = (st.currentIndex : Int) ∧
                    (st.users.length : Int) - 1 ≤ (st.currentIndex : Int) then 0
                else st.currentIndex }) := by
  unfold removeUser loadRotationState
  rw [if_pos hv]

theorem removeUser_load_error (st : RotationState) (userId : String)
    (hv : ¬validateRotationState st = true) :
    removeUser st userId = .error "Failed to load rotation state: invalid rotation state" := by
  unfold removeUser loadRotationState
  rw [if_neg hv]

/-- C10: the engine's advance decision equals the plain new-period predicate;
the "missed periods" fallback recomputes the same condition and can never
change the outcome. -/
theorem claim_C10 (state : RotationState) (currentDate : Int) :
    shouldAdvanceRotation state currentDate
      = isNewRotationPeriod state.lastRotationDate currentDate state.config := by
  unfold shouldAdvanceRotation isNewRotationPeriod
  by_cases h : 0 < getPeriodsBetween state.lastRotationDate currentDate state.config
  · simp [h]
  · simp [h]

/-! ### Claims about the engine and storage operations -/

/-- The roster used by the concrete scenarios. -/
def rosterABC : List User :=
  [⟨"A", none, "2024-01-01"⟩, ⟨"B", none, "2024-01-01"⟩, ⟨"C", none, "2024-01-01"⟩]

/-- Counterexample state for C1: the rotation starts one day after the epoch,
so a target date at the epoch lies before the rotation start. -/
def cexState : RotationState := ⟨rosterABC, 0, 0, 86400000, dailyConfig⟩

/-- Counterexample to C1 as stated: for a target date before the rotation
start the period count is negative, the JavaScript `%` keeps it negative, the
negative subscript is undefined, and the preview throws instead of returning
a roster entry (no normalization into `[0, roster.length)` happens). -/
theorem claim_C1_counterexample :
    previewForumOwner cexState 0 = .error "User not found at index -1" := rfl

/-- C1 (amended): the preview is a pure function of state and date that takes
`periodsBetween(rotationStart, targetDate)` modulo the roster length with the
JavaScript truncating `%`; whenever that period count is non-negative (in
particular for every target date from the rotation start onwards) it returns
the roster entry at that index; for a negative period count whose remainder
is non-zero it fails instead of returning an entry. Persisted state is never
mutated: the operation returns no state (pure by construction). -/
theorem claim_C1 (st : RotationState) (targetDate : Int)
    (hv : validateRotationState st = true)
    (hc : 0 ≤ getPeriodsBetween st.startDate targetDate st.config) :
    ∃ h : 0 < st.users.length,
      previewForumOwner st targetDate
        = .ok (st.users.get
            ⟨(getPeriodsBetween st.startDate targetDate st.config).toNat % st.users.length,
              Nat.mod_lt _ h⟩) := by
  have h := validate_users_pos st hv
  refine ⟨h, ?_⟩
  rw [previewForumOwner_ok st targetDate hv]
  obtain ⟨n, hn⟩ : ∃ n : Nat, getPeriodsBetween st.startDate targetDate st.config = (n : Int) :=
    ⟨(getPeriodsBetween st.startDate targetDate st.config).toNat,
      (Int.toNat_of_nonneg hc).symm⟩
  rw [hn, Int.toNat_natCast, jsMod_natCast n st.users.length,
    getUserAtIndex_natCast st (n % st.users.length) h]
  have hidx : n % st.users.length % st.users.length = n % st.users.length :=
    Nat.mod_eq_of_lt (Nat.mod_lt _ h)
  exact congrArg (fun j => Except.ok (st.users.get j)) (Fin.ext hidx)

/-- State used to witness the amended C1. -/
def previewState : RotationState := ⟨rosterABC, 0, 0, 0, dailyConfig⟩

/-- Witness for the amended C1: two days and 5 ms after the rotation start,
the period count is 2 and the preview returns the roster entry at index 2. -/
theorem claim_C1_witness :
    previewForumOwner previewState 172800005
      = .ok (⟨"C", none, "2024-01-01"⟩ : User) := by
  obtain ⟨h, he⟩ := claim_C1 previewState 172800005 (by decide) (by decide)
  exact he.trans (by rfl)

/-- C4: the unconditional manual advance is the successor modulo the roster
length; it returns the roster entry at the new index and persists the new
index together with `lastRotationDate = now` as one combined write (a single
state update in the model). -/
theorem claim_C4 (st : RotationState) (now : Int) (h : 0 < st.users.length) :
    advanceToNextUser st now
      = .ok (st.users.get ⟨(st.currentIndex + 1) % st.users.length, Nat.mod_lt _ h⟩,
          { st with currentIndex := (st.currentIndex + 1) % st.users.length,
                    lastRotationDate := now }) := by
  unfold advanceToNextUser
  rw [if_neg (by omega)]
  rw [List.getElem?_eq_getElem (Nat.mod_lt _ h)]
  unfold kvUpdateRotationState
  simp [List.get_eq_getElem]

/-- State for the spec's concrete scenario 3: roster `[A, B, C]` with
`currentIndex = 2`. -/
def stateABC2 : RotationState := ⟨rosterABC, 2, 0, 0, weeklyIsoConfig⟩

/-- Witness for C4: on roster `[A, B, C]` with index 2 the skip returns `A`
and the persisted index wraps to 0. -/
theorem claim_C4_witness :
    advanceToNextUser stateABC2 99
      = .ok (⟨"A", none, "2024-01-01"⟩,
          { stateABC2 with currentIndex := 0, lastRotationDate := 99 }) :=
  (claim_C4 stateABC2 99 (by decide)).trans (by rfl)

/-- C7: `setCurrentUser` fails with the member-not-found error exactly when no
roster entry has the requested identity (and then returns no new state, so
the persisted state is unchanged); when the identity is found at index `i` it
returns that entry and persists `currentIndex = i` together with
`lastRotationDate = now`. -/
theorem claim_C7 (st : RotationState) (userId : String) (now : Int)
    (hv : validateRotationState st = true) :
    ((∀ u ∈ st.users, (u.id == userId) = false) →
      setCurrentUser st userId now
        = .error ("User with ID " ++ userId ++ " not found in rotation"))
    ∧ (∀ i : Nat, jsFindIndex (fun u => u.id == userId) st.users = (i : Int) →
        ∃ h : i < st.users.length,
          (st.users.get ⟨i, h⟩).id = userId ∧
          setCurrentUser st userId now
            = .ok (st.users.get ⟨i, h⟩,
                { st with currentIndex := i, lastRotationDate := now })) := by
  constructor
  · intro hall
    have hfi : jsFindIndex (fun u => u.id == userId) st.users = -1 :=
      (jsFindIndex_eq_neg_one_iff _ st.users).mpr hall
    rw [setCurrentUser_ok st userId now hv, if_pos hfi]
  · intro i hfi
    obtain ⟨hlt, hpi⟩ := jsFindIndex_get _ st.users i hfi
    refine ⟨hlt, by simpa using hpi, ?_⟩
    rw [setCurrentUser_ok st userId now hv, hfi, if_neg (by omega), Int.toNat_natCast,
      updateRotationState_ok st i now hv]
    show Except.ok (st.users.getD i default,
        { st with currentIndex := i, lastRotationDate := now }) = _
    rw [getD_eq_get st.users i hlt]

/-- State for the spec's concrete scenario 5: roster `[A, B, C]` with
`currentIndex = 0`. -/
def stateABC0 : RotationState := ⟨rosterABC, 0, 0, 0, weeklyIsoConfig⟩

/-- Witness for C7: `setCurrentUser "B"` moves the pointer to index 1 and
returns `B`; `setCurrentUser "Z"` fails with the member-not-found error. -/
theorem claim_C7_witness :
    setCurrentUser stateABC0 "B" 7
      = .ok (⟨"B", none, "2024-01-01"⟩,
          { stateABC0 with currentIndex := 1, lastRotationDate := 7 })
    ∧ setCurrentUser stateABC0 "Z" 7
      = .error "User with ID Z not found in rotation" := by
  constructor
  · obtain ⟨h, _, he⟩ := (claim_C7 stateABC0 "B" 7 (by decide)).2 1 (by decide)
    exact he.trans (by rfl)
  · exact ((claim_C7 stateABC0 "Z" 7 (by decide)).1 (by decide)).trans (by rfl)

/-- C8: the roster can never be emptied through `removeUser` — removing the
sole remaining member fails (before anything is saved, so the persisted state
is unchanged), and every successful removal keeps the pointer invariant
`currentIndex < roster.length` provided it held before. -/
theorem claim_C8 (st : RotationState) (userId : String) :
    (st.users.length = 1 → (removeUser st userId).isOk = false)
    ∧ (∀ st2 : RotationState, removeUser st userId = .ok st2 →
        st.currentIndex < st.users.length → st2.currentIndex < st2.users.length) := by
  constructor
  · intro hlen
    by_cases hv : validateRotationState st = true
    · rcases jsFindIndex_bound (fun u => u.id == userId) st.users with hfi | ⟨h0, hlt⟩
      · rw [removeUser_ok st userId hv, if_pos hfi]
        rfl
      · have hz : (st.users.eraseIdx
            (jsFindIndex (fun u => u.id == userId) st.users).toNat).length = 0 := by
          rw [List.length_eraseIdx st.users _,
            if_pos (show (jsFindIndex (fun u => u.id == userId) st.users).toNat
                < st.users.length by omega)]
          omega
        rw [removeUser_ok st userId hv, if_neg (by omega), if_pos hz]
        rfl
    · rw [removeUser_load_error st userId hv]
      rfl
  · intro st2 hok hidx
    by_cases hv : validateRotationState st = true
    case neg =>
      rw [removeUser_load_error st userId hv] at hok
      exact absurd hok (by simp)
    case pos =>
      rw [removeUser_ok st userId hv] at hok
      rcases jsFindIndex_bound (fun u => u.id == userId) st.users with hfi | ⟨h0, hlt⟩
      · rw [if_pos hfi] at hok
        exact absurd hok (by simp)
      · rw [if_neg (by omega)] at hok
        obtain ⟨j, hj⟩ : ∃ j : Nat,
            jsFindIndex (fun u => u.id == userId) st.users = (j : Int) :=
          ⟨(jsFindIndex (fun u => u.id == userId) st.users).toNat,
            (Int.toNat_of_nonneg h0).symm⟩
        have hjl : j < st.users.length := by omega
        rw [hj, Int.toNat_natCast] at hok
        have hel : (st.users.eraseIdx j).length = st.users.length - 1 := by
          rw [List.length_eraseIdx st.users j, if_pos hjl]
        by_cases hz : (st.users.eraseIdx j).length = 0
        · rw [if_pos hz] at hok
          exact absurd hok (by simp)
        · rw [if_neg hz] at hok
          unfold saveRotationState at hok
          by_cases hv2 : validateRotationState
              { st with
                users := st.users.eraseIdx j,
                currentIndex :=
                  if (j : Int) < (st.currentIndex : Int) then st.currentIndex - 1
                  else if (j : Int) = (st.currentIndex : Int) ∧
                      (st.users.length : Int) - 1 ≤ (st.currentIndex : Int) then 0
                  else st.currentIndex } = true
          · rw [if_pos hv2] at hok
            have hst2 : st2
                = { st with
                    users := st.users.eraseIdx j,
                    currentIndex :=
                      if (j : Int) < (st.currentIndex : Int) then st.currentIndex - 1
                      else if (j : Int) = (st.currentIndex : Int) ∧
                          (st.users.length : Int) - 1 ≤ (st.currentIndex : Int) then 0
                      else st.currentIndex } := by
              cases hok
              rfl
            rw [hst2]
            show (if (j : Int) < (st.currentIndex : Int) then st.currentIndex - 1
                else if (j : Int) = (st.currentIndex : Int) ∧
                    (st.users.length : Int) - 1 ≤ (st.currentIndex : Int) then 0
                else st.currentIndex) < (st.users.eraseIdx j).length
            rw [hel]
            split_ifs <;> omega
          · rw [if_neg hv2] at hok
            exact absurd hok (by simp)

/-- State with a single roster member, for the C8 witness. -/
def soloState : RotationState := ⟨[⟨"A", none, "2024-01-01"⟩], 0, 0, 0, dailyConfig⟩

/-- The state left by a successful `removeUser "A"` on `stateABC0`. -/
def removedState : RotationState :=
  ⟨[⟨"B", none, "2024-01-01"⟩, ⟨"C", none, "2024-01-01"⟩], 0, 0, 0, weeklyIsoConfig⟩

/-- Witness for C8: removing the sole member fails, and a successful removal
keeps the pointer in bounds. -/
theorem claim_C8_witness :
    (removeUser soloState "A").isOk = false ∧
    removedState.currentIndex < removedState.users.length := by
  constructor
  · exact (claim_C8 soloState "A").1 rfl
  · exact (claim_C8 stateABC0 "A").2 removedState (by rfl) (by decide)

/-- C9: the read-only owner queries reduce the index modulo the roster length
before subscripting, so any loadable state with a non-empty roster — in
particular one whose `currentIndex` is out of bounds (no upper-bound check
exists at load time) — yields the entry at `currentIndex % roster.length`
instead of failing; with an empty roster both queries fail. -/
theorem claim_C9 :
    (∀ (st : RotationState), validateRotationState st = true →
      ∀ h : 0 < st.users.length,
        getCurrentForumOwnerReadOnly st
          = .ok (st.users.get ⟨st.currentIndex % st.users.length, Nat.mod_lt _ h⟩)
        ∧ getCurrentUser st
          = .ok (st.users.get ⟨st.currentIndex % st.users.length, Nat.mod_lt _ h⟩))
    ∧ (∀ st : RotationState, st.users = [] →
        (getCurrentForumOwnerReadOnly st).isOk = false
        ∧ (getCurrentUser st).isOk = false) := by
  constructor
  · intro st hv h
    constructor
    · rw [getCurrentForumOwnerReadOnly_ok st hv]
      exact getUserAtIndex_natCast st st.currentIndex h
    · rw [getCurrentUser_ok st hv, if_neg (by omega), getD_eq_get st.users _ (Nat.mod_lt _ h)]
  · intro st hempty
    have hv : ¬validateRotationState st = true := by
      unfold validateRotationState
      rw [hempty]
      simp
    constructor
    · rw [getCurrentForumOwnerReadOnly_load_error st hv]
      rfl
    · rw [getCurrentUser_load_error st hv]
      rfl

/-- State with `currentIndex = 5` out of bounds for its three users. -/
def outOfBoundsState : RotationState := ⟨rosterABC, 5, 0, 0, weeklyIsoConfig⟩

/-- Witness for C9: with `currentIndex = 5` and three users, both read-only
owner queries return the entry at index `5 % 3 = 2` instead of failing. -/
theorem claim_C9_witness :
    getCurrentForumOwnerReadOnly outOfBoundsState
      = .ok (⟨"C", none, "2024-01-01"⟩ : User)
    ∧ getCurrentUser outOfBoundsState = .ok (⟨"C", none, "2024-01-01"⟩ : User) := by
  obtain ⟨h1, h2⟩ := claim_C9.1 outOfBoundsState (by decide) (by decide)
  exact ⟨h1.trans (by rfl), h2.trans (by rfl)⟩

end Rotation
